import Mathlib

/-!
Verification of the token-budgeted conversation store
(`src/phase2/codex_cli_optimization_v1.rs`, with the `keep_last_messages`
entry point from `src/phase2/integration_patch.rs`).

Shallow embedding choices:
- `VecDeque<ResponseItem>` is a `List ResponseItem`; `usize` is `Nat`
  (`usize` saturating subtraction is `Nat` subtraction).
- `f64` importance scores are embedded as `Int` values in hundredths
  (`0.5` becomes `50`, the thresholds `0.3` / `0.7` become `30` / `70`,
  the Tier C recency boost `1.0` becomes `100`): every score constant in
  the source is an exact multiple of `0.01`, so the arithmetic is exact,
  and no claim in this development depends on a floating-point rounding
  boundary.
- `chrono::DateTime<Utc>` timestamps are `Int` seconds;
  `signed_duration_since(..).num_minutes()` is truncating division by 60.
- `chrono::Utc::now()` inside `calculate_importance` is passed in as an
  explicit `now` parameter (the only impure input of the Rust code).
- Rust's byte-oriented `str::len` is `String.length`; all concrete inputs
  used below are ASCII, where the two agree, as do `to_lowercase` and
  `Char.toLower`.
- `estimate_tokens` computes `(len as f64 / 3.5).ceil() as usize`; for the
  relevant range this equals the exact rational ceiling `⌈2·len / 7⌉`,
  embedded as `(2 * len + 6) / 7` in `Nat`.
-/

namespace CodexOpt

/-- `MessageType` from the source. -/
inductive MessageType where
  | UserQuery
  | SystemResponse
  | CodeExecution
  | ImportantDecision
  | ErrorHandling
  | ContextualInfo
  deriving DecidableEq, Repr

/-- `ResponseItem` from the source. -/
structure ResponseItem where
  content : String
  role : String
  timestamp : Int
  token_count : Nat
  /-- The `f64` score, in exact hundredths. -/
  importance_score : Int
  message_type : MessageType
  deriving DecidableEq, Repr

instance : Inhabited ResponseItem :=
  ⟨⟨"", "", 0, 0, 0, MessageType.UserQuery⟩⟩

/-- `OptimizedConversationHistory` from the source. -/
structure OptimizedConversationHistory where
  items : List ResponseItem
  max_tokens : Nat
  current_tokens : Nat
  min_messages : Nat
  full_retention_count : Nat
  deriving DecidableEq, Repr

abbrev Store := OptimizedConversationHistory

/-- `pat` is an initial run of `l` (character-list version of
Rust's `str::starts_with`). -/
def leadsWith : List Char → List Char → Bool
  | [], _ => true
  | _ :: _, [] => false
  | a :: as, b :: bs => a == b && leadsWith as bs

/-- `pat` occurs contiguously somewhere in `l` (character-list version of
Rust's `str::contains`). -/
def hasSub (pat : List Char) : List Char → Bool
  | [] => pat.isEmpty
  | c :: rest => leadsWith pat (c :: rest) || hasSub pat rest

/-- Characters of `l` strictly before the first occurrence of `pat`
(the whole list when `pat` does not occur): the first piece of
Rust's `str::split(pat)`. -/
def takeUntilSub (pat : List Char) : List Char → List Char
  | [] => []
  | c :: rest => if leadsWith pat (c :: rest) then [] else c :: takeUntilSub pat rest

/-- Rust `str::to_lowercase` (ASCII fragment). -/
def lowerStr (s : String) : String :=
  String.mk (s.data.map Char.toLower)

/-- Rust `str::contains` on strings. -/
def strContains (s pat : String) : Bool :=
  hasSub pat.data s.data

/-- Rust `str::starts_with` on strings. -/
def strStartsWith (s pat : String) : Bool :=
  leadsWith pat.data s.data

/-- `estimate_tokens`: `(text.len() as f64 / 3.5).ceil() as usize`,
i.e. the rational ceiling of `len / 3.5 = 2·len / 7`. -/
def estimate_tokens (text : String) : Nat :=
  (2 * text.length + 6) / 7

/-- The fixed `key_terms` array of `create_summary`. -/
def key_terms : List String :=
  ["error", "function", "variable", "config", "solution", "result"]

/-- The key-term annotation loop of `create_summary`: the Rust `for term in
&key_terms` loop, threading the growing `summary` through a fold. -/
def addKeyTerms (content : String) (summary0 : String) : String :=
  key_terms.foldl
    (fun summary term =>
      if strContains (lowerStr content) term = true ∧
          strContains (lowerStr summary) term = false then
        summary ++ " [Contains: " ++ term ++ "]"
      else summary)
    summary0

/-- `create_summary` from the source: short contents are returned unchanged;
otherwise the piece before the first `". "` plus key-term tags plus the
`" [Compressed]"` marker. -/
def create_summary (content : String) : String :=
  if content.length ≤ 200 then content
  else
    let first_sentence := String.mk (takeUntilSub [ '.', ' ' ] content.data)
    addKeyTerms content first_sentence ++ " [Compressed]"

/-- `calculate_importance` from the source (the `&self` receiver is unused in
the Rust code and dropped; `Utc::now()` is the explicit `now`). Scores are
in hundredths: `0.5` is `50`, and the final `clamp(0.0, 1.0)` is a clamp to
`[0, 100]`. Pure by construction: it is a function of the item's stored
fields and `now`. -/
def calculate_importance (item : ResponseItem) (now : Int) : Int :=
  let score : Int := 50
  let score := score +
    (match item.message_type with
      | MessageType.ImportantDecision => (40 : Int)
      | MessageType.ErrorHandling => 30
      | MessageType.UserQuery => 20
      | MessageType.CodeExecution => 10
      | MessageType.SystemResponse => 0
      | MessageType.ContextualInfo => -10)
  let content_lower := lowerStr item.content
  let score := if strContains content_lower "error" = true ∨
      strContains content_lower "bug" = true then score + 20 else score
  let score := if strContains content_lower "important" = true ∨
      strContains content_lower "critical" = true then score + 20 else score
  let score := if strContains content_lower "solution" = true ∨
      strContains content_lower "fix" = true then score + 15 else score
  let score := if strContains item.content "```" = true ∨
      strContains item.content "fn " = true then score + 10 else score
  let score := if item.content.length > 2000 then score - 10 else score
  let age_minutes := Int.tdiv (now - item.timestamp) 60
  let score := if age_minutes < 60 then score + 10 else score
  min 100 (max 0 score)

/-- `is_essential_message` from the source. -/
def is_essential_message (item : ResponseItem) : Bool :=
  let content_lower := lowerStr item.content
  strStartsWith content_lower "system:" ||
  (strContains content_lower "error:" || strContains content_lower "exception") ||
  (strContains content_lower "config" || strContains content_lower "setting")

/-- One iteration of the `compress_old_messages` loop body, for the item at
the current index: returns the updated running total and the updated item. -/
def compressStep (current : Nat) (item : ResponseItem) : Nat × ResponseItem :=
  if item.content.length > 200 ∧ item.importance_score < 70 then
    let summary := create_summary item.content
    let old_tokens := item.token_count
    let new_tokens := estimate_tokens summary
    (current - old_tokens + new_tokens,
      { item with content := summary, token_count := new_tokens })
  else (current, item)

/-- The `compress_old_messages` loop over the compressible front of the
sequence, threading the running total. -/
def compressList (current : Nat) : List ResponseItem → Nat × List ResponseItem
  | [] => (current, [])
  | item :: rest =>
    ((compressList (compressStep current item).1 rest).1,
      (compressStep current item).2 :: (compressList (compressStep current item).1 rest).2)

/-- `compress_old_messages` from the source: items at indices below
`len − full_retention_count` go through `compressStep`, the rest are kept
as they are. -/
def compress_old_messages (s : Store) : Store :=
  let compress_threshold := s.items.length - s.full_retention_count
  let front := s.items.take compress_threshold
  let back := s.items.drop compress_threshold
  { s with items := (compressList s.current_tokens front).2 ++ back,
           current_tokens := (compressList s.current_tokens front).1 }

/-- The `remove_low_importance_messages` while-loop. `b` is the remaining
scan budget `bound − i`, where `bound = len₀ − min_messages` is computed
once from the length at entry (`len` is not refreshed after removals in the
Rust loop — this staleness is part of the embedded behaviour). The list
argument is the part of the sequence from the scan position on; removal
keeps `b` (the Rust loop `continue`s without `i += 1`), keeping an item
consumes one unit of `b`. The running total subtraction saturates
(`saturating_sub`), which is `Nat` subtraction. -/
def removeGo (maxT : Nat) : Nat → Nat → List ResponseItem → List ResponseItem × Nat
  | 0, c, items => (items, c)
  | _ + 1, c, [] => ([], c)
  | b + 1, c, item :: rest =>
    if c ≤ maxT then (item :: rest, c)
    else if item.importance_score < 30 ∧ is_essential_message item = false then
      removeGo maxT (b + 1) (c - item.token_count) rest
    else
      (item :: (removeGo maxT b c rest).1, (removeGo maxT b c rest).2)

/-- `remove_low_importance_messages` from the source. -/
def remove_low_importance_messages (s : Store) : Store :=
  { s with
    items :=
      (removeGo s.max_tokens (s.items.length - s.min_messages) s.current_tokens s.items).1,
    current_tokens :=
      (removeGo s.max_tokens (s.items.length - s.min_messages) s.current_tokens s.items).2 }

/-- The composite ranking score of `aggressive_prune`: importance plus a
`1.0` (here `100`, in hundredths) recency boost for indices in the last
`min_messages` positions. (The Rust index subtraction
`items.len() - min_messages` cannot underflow at its call site, where
`items.len() > target_count ≥ min_messages`.) -/
def aggressiveScore (items : List ResponseItem) (min_messages : Nat) (i : Nat) : Int :=
  (items.getD i default).importance_score +
    (if items.length - min_messages ≤ i then 100 else 0)

/-- `aggressive_prune` from the source: rank indices by composite score
descending (stable, matching Rust's stable `sort_by`), keep the top
`target_count` indices, rebuild the sequence in original index order, and
recompute the running total from the survivors. -/
def aggressive_prune (s : Store) : Store :=
  let target_count := max s.min_messages (min (s.max_tokens / 1000) 50)
  if s.items.length ≤ target_count then s
  else
    let score := aggressiveScore s.items s.min_messages
    let importance_indices :=
      (List.range s.items.length).mergeSort (fun a b => decide (score b ≤ score a))
    let keep_indices := importance_indices.take target_count
    let new_items :=
      (s.items.enum.filter (fun p => decide (p.1 ∈ keep_indices))).map Prod.snd
    { s with items := new_items,
             current_tokens := (new_items.map (fun it => it.token_count)).sum }

/-- `intelligent_prune` from the source. -/
def intelligent_prune (s : Store) : Store :=
  if s.current_tokens ≤ s.max_tokens then s
  else
    let s1 := compress_old_messages s
    let s2 := if s1.current_tokens > s1.max_tokens
      then remove_low_importance_messages s1 else s1
    if s2.current_tokens > s2.max_tokens then aggressive_prune s2 else s2

/-- `add_message` from the source. -/
def add_message (s : Store) (item : ResponseItem) (now : Int) : Store :=
  let item := if item.token_count = 0
    then { item with token_count := estimate_tokens item.content } else item
  let item := { item with importance_score := calculate_importance item now }
  let s' := { s with items := s.items ++ [item],
                     current_tokens := s.current_tokens + item.token_count }
  intelligent_prune s'

/-- `OptimizedConversationHistory::new` from the source. -/
def new (max_tokens : Nat) : Store :=
  { items := [], max_tokens := max_tokens, current_tokens := 0,
    min_messages := 10, full_retention_count := 20 }

/-- `ConversationHistory::keep_last_messages` from `integration_patch.rs`,
acting on the wrapped store. -/
def keep_last_messages (s : Store) (count : Nat) : Store :=
  if count > 0 then intelligent_prune { s with min_messages := count } else s

/-- A sequence of ingests: fold `add_message` over (item, now) pairs. -/
def ingestAll (s : Store) : List (ResponseItem × Int) → Store
  | [] => s
  | (item, now) :: rest => ingestAll (add_message s item now) rest

/-- The store's running total matches the item-by-item token sum. -/
def sumInv (s : Store) : Prop :=
  s.current_tokens = (s.items.map (fun it => it.token_count)).sum

/-! Spec-side model of the Scorer (section 4.2 of the spec), written from the
spec's words as independent additive components, to be compared with the
source-derived `calculate_importance`. Same hundredths scale. -/

/-- Spec 4.2: category bonus/penalty. -/
def categoryAdjustment : MessageType → Int
  | MessageType.ImportantDecision => 40
  | MessageType.ErrorHandling => 30
  | MessageType.UserQuery => 20
  | MessageType.CodeExecution => 10
  | MessageType.SystemResponse => 0
  | MessageType.ContextualInfo => -10

/-- Spec 4.2: keyword bonuses, non-exclusive, all that match apply. -/
def keywordBonus (content : String) : Int :=
  (if strContains (lowerStr content) "error" = true ∨
      strContains (lowerStr content) "bug" = true then 20 else 0) +
  (if strContains (lowerStr content) "important" = true ∨
      strContains (lowerStr content) "critical" = true then 20 else 0) +
  (if strContains (lowerStr content) "solution" = true ∨
      strContains (lowerStr content) "fix" = true then 15 else 0)

/-- Spec 4.2: code-likelihood bonus. -/
def codeMarkerBonus (content : String) : Int :=
  if strContains content "```" = true ∨ strContains content "fn " = true then 10 else 0

/-- Spec 4.2: verbosity penalty. -/
def verbosityPenalty (content : String) : Int :=
  if content.length > 2000 then -10 else 0

/-- Spec 4.2: recency bonus for age under 60 minutes. -/
def recencyBonus (timestamp now : Int) : Int :=
  if Int.tdiv (now - timestamp) 60 < 60 then 10 else 0

/-- Spec 4.2: additive model, base 0.5, then clamp to [0,1]. -/
def importanceSpec (item : ResponseItem) (now : Int) : Int :=
  min 100 (max 0
    (50 + categoryAdjustment item.message_type + keywordBonus item.content +
      codeMarkerBonus item.content + verbosityPenalty item.content +
      recencyBonus item.timestamp now))

end CodexOpt

namespace CodexOpt

/-! ### Field-preservation lemmas
The pruning operations never touch the three configuration scalars. -/

theorem compress_max (s : Store) :
    (compress_old_messages s).max_tokens = s.max_tokens := rfl

theorem compress_min (s : Store) :
    (compress_old_messages s).min_messages = s.min_messages := rfl

theorem remove_max (s : Store) :
    (remove_low_importance_messages s).max_tokens = s.max_tokens := rfl

theorem remove_min (s : Store) :
    (remove_low_importance_messages s).min_messages = s.min_messages := rfl

theorem aggressive_max (s : Store) :
    (aggressive_prune s).max_tokens = s.max_tokens := by
  simp only [aggressive_prune]; split <;> rfl

theorem aggressive_min (s : Store) :
    (aggressive_prune s).min_messages = s.min_messages := by
  simp only [aggressive_prune]; split <;> rfl

theorem intelligent_prune_max (s : Store) :
    (intelligent_prune s).max_tokens = s.max_tokens := by
  simp only [intelligent_prune]
  split
  · rfl
  · (repeat' split) <;>
      simp [aggressive_max, remove_max, compress_max]

theorem intelligent_prune_min (s : Store) :
    (intelligent_prune s).min_messages = s.min_messages := by
  simp only [intelligent_prune]
  split
  · rfl
  · (repeat' split) <;>
      simp [aggressive_min, remove_min, compress_min]

end CodexOpt

namespace CodexOpt

/-! ### String-helper lemmas -/

theorem leadsWith_append_self (p r : List Char) : leadsWith p (p ++ r) = true := by
  induction p with
  | nil => rfl
  | cons a as ih => simp [leadsWith, ih]

theorem leadsWith_head_ne {a c : Char} (as l : List Char) (h : ¬ a = c) :
    leadsWith (a :: as) (c :: l) = false := by
  simp [leadsWith, h]

theorem hasSub_of_surrounds (c : Char) (cs l₁ l₂ : List Char) :
    hasSub (c :: cs) (l₁ ++ ((c :: cs) ++ l₂)) = true := by
  induction l₁ with
  | nil =>
    have hl : leadsWith (c :: cs) ((c :: cs) ++ l₂) = true := leadsWith_append_self _ _
    rw [List.nil_append, List.cons_append]
    rw [List.cons_append] at hl
    simp [hasSub, hl]
  | cons d ds ih =>
    rw [List.cons_append] at ih
    simp only [List.cons_append, hasSub, List.append_eq, ih, Bool.or_true]

theorem hasSub_head_notMem {a : Char} (as : List Char) {l : List Char} (h : a ∉ l) :
    hasSub (a :: as) l = false := by
  induction l with
  | nil => rfl
  | cons c rest ih =>
    have hac : ¬ a = c := fun e => h (e ▸ List.mem_cons_self c rest)
    have hrest : a ∉ rest := fun hr => h (List.mem_cons_of_mem c hr)
    simp [hasSub, leadsWith_head_ne as rest hac, ih hrest]

theorem takeUntilSub_notMem {a : Char} (as : List Char) {l : List Char} (h : a ∉ l) :
    takeUntilSub (a :: as) l = l := by
  induction l with
  | nil => rfl
  | cons c rest ih =>
    have hac : ¬ a = c := fun e => h (e ▸ List.mem_cons_self c rest)
    have hrest : a ∉ rest := fun hr => h (List.mem_cons_of_mem c hr)
    simp [takeUntilSub, leadsWith_head_ne as rest hac, ih hrest]

theorem strContains_mk_false_of_head_notMem {l : List Char} {pat : String} {a : Char}
    {as : List Char} (hp : pat.data = a :: as) (h : a ∉ l) :
    strContains (String.mk l) pat = false := by
  unfold strContains; rw [hp]; exact hasSub_head_notMem as h

theorem strContains_append_marker (s : String) :
    strContains (s ++ " [Compressed]") "[Compressed]" = true := by
  unfold strContains
  rw [String.data_append,
    show (" [Compressed]").data = ' ' :: ("[Compressed]").data from rfl,
    show s.data ++ (' ' :: ("[Compressed]").data) =
      (s.data ++ [' ']) ++ (("[Compressed]").data ++ []) by simp,
    show ("[Compressed]").data = '[' :: ("Compressed]").data from rfl]
  exact hasSub_of_surrounds '[' _ _ _

theorem create_summary_eq_of_long {content : String} (h : 200 < content.length) :
    create_summary content =
      addKeyTerms content (String.mk (takeUntilSub [ '.', ' ' ] content.data)) ++
        " [Compressed]" := by
  unfold create_summary
  rw [if_neg (by omega)]

theorem create_summary_marker {content : String} (h : 200 < content.length) :
    strContains (create_summary content) "[Compressed]" = true := by
  rw [create_summary_eq_of_long h]; exact strContains_append_marker _

theorem addKeyTerms_of_none {content : String}
    (h : ∀ t ∈ key_terms, strContains (lowerStr content) t = false) (s0 : String) :
    addKeyTerms content s0 = s0 := by
  have h1 := h "error" (by simp [key_terms])
  have h2 := h "function" (by simp [key_terms])
  have h3 := h "variable" (by simp [key_terms])
  have h4 := h "config" (by simp [key_terms])
  have h5 := h "solution" (by simp [key_terms])
  have h6 := h "result" (by simp [key_terms])
  simp [addKeyTerms, key_terms, h1, h2, h3, h4, h5, h6]

theorem lowerStr_replicate_a (n : Nat) :
    lowerStr (String.mk (List.replicate n 'a')) = String.mk (List.replicate n 'a') := by
  simp [lowerStr, List.map_replicate, show Char.toLower 'a' = 'a' from rfl]

theorem compressStep_of_eligible {c : Nat} {item : ResponseItem}
    (h1 : 200 < item.content.length) (h2 : item.importance_score < 70) :
    compressStep c item =
      (c - item.token_count + estimate_tokens (create_summary item.content),
       { item with content := create_summary item.content,
                   token_count := estimate_tokens (create_summary item.content) }) := by
  unfold compressStep; rw [if_pos ⟨h1, h2⟩]

end CodexOpt

namespace CodexOpt

/-! ### Tier A (compression) lemmas -/

theorem compressStep_timestamp (c : Nat) (item : ResponseItem) :
    ((compressStep c item).2).timestamp = item.timestamp := by
  unfold compressStep; split <;> rfl

theorem compressStep_sum {c : Nat} {item : ResponseItem} (h : item.token_count ≤ c) :
    (compressStep c item).1 + item.token_count =
      c + ((compressStep c item).2).token_count := by
  unfold compressStep; split
  · simp only []; omega
  · rfl

theorem compressList_map_timestamp (c : Nat) (l : List ResponseItem) :
    ((compressList c l).2).map (fun it => it.timestamp) =
      l.map (fun it => it.timestamp) := by
  induction l generalizing c with
  | nil => rfl
  | cons x xs ih => simp [compressList, compressStep_timestamp, ih]

theorem compressList_sum {l : List ResponseItem} : ∀ {c : Nat},
    (l.map (fun it => it.token_count)).sum ≤ c →
    (compressList c l).1 + (l.map (fun it => it.token_count)).sum =
      c + (((compressList c l).2).map (fun it => it.token_count)).sum := by
  induction l with
  | nil => intro c _; simp [compressList]
  | cons x xs ih =>
    intro c h
    rw [List.map_cons, List.sum_cons] at h
    have hx : x.token_count ≤ c := by omega
    have hstep := @compressStep_sum c x hx
    have hxs : (xs.map (fun it => it.token_count)).sum ≤ (compressStep c x).1 := by omega
    have ihx := ih hxs
    simp only [compressList, List.map_cons, List.sum_cons]
    omega

/-! ### Tier B (removal) lemmas -/

theorem removeGo_sublist (maxT : Nat) (l : List ResponseItem) : ∀ (b c : Nat),
    ((removeGo maxT b c l).1).Sublist l := by
  induction l with
  | nil => intro b c; cases b <;> simp [removeGo]
  | cons x xs ih =>
    intro b c
    cases b with
    | zero => simp [removeGo]
    | succ b' =>
      simp only [removeGo]
      split
      · exact List.Sublist.refl _
      · split
        · exact (ih (b' + 1) (c - x.token_count)).trans (List.sublist_cons_self x xs)
        · exact List.Sublist.cons₂ x (ih b' c)

theorem removeGo_sum (maxT : Nat) (l : List ResponseItem) : ∀ (b : Nat) {c : Nat},
    (l.map (fun it => it.token_count)).sum ≤ c →
    (removeGo maxT b c l).2 + (l.map (fun it => it.token_count)).sum =
      c + (((removeGo maxT b c l).1).map (fun it => it.token_count)).sum := by
  induction l with
  | nil => intro b c _; cases b <;> simp [removeGo]
  | cons x xs ih =>
    intro b c h
    rw [List.map_cons, List.sum_cons] at h
    cases b with
    | zero => simp [removeGo]
    | succ b' =>
      simp only [removeGo]
      split
      · simp
      · split
        · have hxs : (xs.map (fun it => it.token_count)).sum ≤ c - x.token_count := by omega
          have ihx := ih (b' + 1) hxs
          rw [List.map_cons, List.sum_cons]
          omega
        · have hxs : (xs.map (fun it => it.token_count)).sum ≤ c := by omega
          have ihx := ih b' hxs
          simp only [List.map_cons, List.sum_cons]
          omega

theorem removeGo_filter_essential (maxT : Nat) (l : List ResponseItem) : ∀ (b c : Nat),
    ((removeGo maxT b c l).1).filter (fun it => is_essential_message it) =
      l.filter (fun it => is_essential_message it) := by
  induction l with
  | nil => intro b c; cases b <;> simp [removeGo]
  | cons x xs ih =>
    intro b c
    cases b with
    | zero => simp [removeGo]
    | succ b' =>
      simp only [removeGo]
      split
      · rfl
      · split
        · rename_i hcond
          rw [List.filter_cons_of_neg (by simp [hcond.2])]
          exact ih (b' + 1) (c - x.token_count)
        · simp only [List.filter_cons]
          rw [ih b' c]

end CodexOpt

namespace CodexOpt

/-! ### Tier C (aggressive prune) lemmas -/

theorem filtered_enum_sublist (l : List ResponseItem) (q : Nat × ResponseItem → Bool) :
    ((l.enum.filter q).map Prod.snd).Sublist l := by
  have h1 : (l.enum.filter q).Sublist l.enum := List.filter_sublist _
  have h2 := List.Sublist.map Prod.snd h1
  rwa [List.enum_map_snd] at h2

theorem filtered_enum_length_le (l : List ResponseItem) (keep : List Nat) :
    ((l.enum.filter (fun p => decide (p.1 ∈ keep))).map Prod.snd).length ≤ keep.length := by
  rw [List.length_map]
  have hlen : (l.enum.filter (fun p => decide (p.1 ∈ keep))).length =
      ((l.enum.filter (fun p => decide (p.1 ∈ keep))).map Prod.fst).length := by
    rw [List.length_map]
  rw [hlen]
  have hsub : ((l.enum.filter (fun p => decide (p.1 ∈ keep))).map Prod.fst).Sublist
      (List.range l.length) := by
    have := List.Sublist.map Prod.fst
      (List.filter_sublist (p := fun p => decide (p.1 ∈ keep)) l.enum)
    rwa [List.enum_map_fst] at this
  have hnodup : ((l.enum.filter (fun p => decide (p.1 ∈ keep))).map Prod.fst).Nodup :=
    hsub.nodup (List.nodup_range _)
  have hsubset : ((l.enum.filter (fun p => decide (p.1 ∈ keep))).map Prod.fst) ⊆ keep := by
    intro y hy
    rcases List.mem_map.mp hy with ⟨p, hp, rfl⟩
    have hq := List.of_mem_filter hp
    exact of_decide_eq_true hq
  exact (List.subperm_of_subset hnodup hsubset).length_le

theorem aggressive_items_sublist (s : Store) :
    ((aggressive_prune s).items).Sublist s.items := by
  simp only [aggressive_prune]
  split
  · exact List.Sublist.refl _
  · exact filtered_enum_sublist _ _

theorem aggressive_length (s : Store) :
    (aggressive_prune s).items.length ≤
      max s.min_messages (min (s.max_tokens / 1000) 50) := by
  simp only [aggressive_prune]
  split
  · rename_i h; exact h
  · have h1 := filtered_enum_length_le s.items
      (((List.range s.items.length).mergeSort
          (fun a b => decide (aggressiveScore s.items s.min_messages b ≤
            aggressiveScore s.items s.min_messages a))).take
        (max s.min_messages (min (s.max_tokens / 1000) 50)))
    have h2 : (((List.range s.items.length).mergeSort
          (fun a b => decide (aggressiveScore s.items s.min_messages b ≤
            aggressiveScore s.items s.min_messages a))).take
        (max s.min_messages (min (s.max_tokens / 1000) 50))).length ≤
        max s.min_messages (min (s.max_tokens / 1000) 50) := by
      rw [List.length_take]
      omega
    exact le_trans h1 h2

theorem aggressive_sumInv (s : Store) (h : sumInv s) : sumInv (aggressive_prune s) := by
  simp only [aggressive_prune]
  split
  · exact h
  · simp [sumInv]

end CodexOpt

namespace CodexOpt

/-! ### Store-level lemmas -/

theorem compress_sumInv (s : Store) (h : sumInv s) : sumInv (compress_old_messages s) := by
  unfold sumInv at h ⊢
  simp only [compress_old_messages, List.map_append, List.sum_append]
  have hsplit : (s.items.map (fun it => it.token_count)).sum =
      ((s.items.take (s.items.length - s.full_retention_count)).map
        (fun it => it.token_count)).sum +
      ((s.items.drop (s.items.length - s.full_retention_count)).map
        (fun it => it.token_count)).sum := by
    conv_lhs =>
      rw [← List.take_append_drop (s.items.length - s.full_retention_count) s.items]
    rw [List.map_append, List.sum_append]
  have hle : ((s.items.take (s.items.length - s.full_retention_count)).map
      (fun it => it.token_count)).sum ≤ s.current_tokens := by omega
  have hcl := compressList_sum (l := s.items.take (s.items.length - s.full_retention_count))
    (c := s.current_tokens) hle
  omega

theorem remove_sumInv (s : Store) (h : sumInv s) :
    sumInv (remove_low_importance_messages s) := by
  unfold sumInv at h ⊢
  simp only [remove_low_importance_messages]
  have := removeGo_sum s.max_tokens s.items (s.items.length - s.min_messages)
    (c := s.current_tokens) (le_of_eq h.symm)
  omega

theorem remove_items_sublist (s : Store) :
    ((remove_low_importance_messages s).items).Sublist s.items :=
  removeGo_sublist s.max_tokens s.items _ _

theorem compress_timestamps (s : Store) :
    (compress_old_messages s).items.map (fun it => it.timestamp) =
      s.items.map (fun it => it.timestamp) := by
  simp only [compress_old_messages]
  rw [List.map_append, compressList_map_timestamp, ← List.map_append,
    List.take_append_drop]

theorem intelligent_prune_sumInv (s : Store) (h : sumInv s) :
    sumInv (intelligent_prune s) := by
  simp only [intelligent_prune]
  split
  · exact h
  · split <;> (try split) <;>
      first
        | exact aggressive_sumInv _ (remove_sumInv _ (compress_sumInv _ h))
        | exact remove_sumInv _ (compress_sumInv _ h)
        | exact aggressive_sumInv _ (compress_sumInv _ h)
        | exact compress_sumInv _ h

theorem intelligent_prune_timestamps (s : Store) :
    ((intelligent_prune s).items.map (fun it => it.timestamp)).Sublist
      (s.items.map (fun it => it.timestamp)) := by
  simp only [intelligent_prune]
  split
  · exact List.Sublist.refl _
  · have hc := compress_timestamps s
    split <;> (try split) <;>
      first
        | (refine (List.Sublist.map _ (aggressive_items_sublist _)).trans ?_
           refine (List.Sublist.map _ (remove_items_sublist _)).trans ?_
           rw [hc])
        | (refine (List.Sublist.map _ (remove_items_sublist _)).trans ?_
           rw [hc])
        | (refine (List.Sublist.map _ (aggressive_items_sublist _)).trans ?_
           rw [hc])
        | rw [hc]

end CodexOpt

namespace CodexOpt

/-- After `intelligent_prune`, the store is within budget or Tier C has
capped the item count at its target. -/
theorem intelligent_prune_budget (s : Store) :
    (intelligent_prune s).current_tokens ≤ (intelligent_prune s).max_tokens ∨
    (intelligent_prune s).items.length ≤
      max (intelligent_prune s).min_messages
        (min ((intelligent_prune s).max_tokens / 1000) 50) := by
  by_cases h0 : s.current_tokens ≤ s.max_tokens
  · have heq : intelligent_prune s = s := by
      simp only [intelligent_prune]; rw [if_pos h0]
    rw [heq]; exact Or.inl h0
  · have heq : intelligent_prune s =
        (if (if (compress_old_messages s).current_tokens >
              (compress_old_messages s).max_tokens
            then remove_low_importance_messages (compress_old_messages s)
            else compress_old_messages s).current_tokens >
          (if (compress_old_messages s).current_tokens >
              (compress_old_messages s).max_tokens
            then remove_low_importance_messages (compress_old_messages s)
            else compress_old_messages s).max_tokens
        then aggressive_prune
          (if (compress_old_messages s).current_tokens >
              (compress_old_messages s).max_tokens
            then remove_low_importance_messages (compress_old_messages s)
            else compress_old_messages s)
        else (if (compress_old_messages s).current_tokens >
              (compress_old_messages s).max_tokens
            then remove_low_importance_messages (compress_old_messages s)
            else compress_old_messages s)) := by
      simp only [intelligent_prune]; rw [if_neg h0]
    set s2 := if (compress_old_messages s).current_tokens >
        (compress_old_messages s).max_tokens
      then remove_low_importance_messages (compress_old_messages s)
      else compress_old_messages s with hs2
    by_cases h2 : s2.current_tokens > s2.max_tokens
    · rw [heq, if_pos h2]
      right
      rw [aggressive_max, aggressive_min]
      exact aggressive_length s2
    · rw [heq, if_neg h2]
      exact Or.inl (by omega)

theorem add_message_sumInv (s : Store) (item : ResponseItem) (now : Int)
    (h : sumInv s) : sumInv (add_message s item now) := by
  simp only [add_message]
  apply intelligent_prune_sumInv
  unfold sumInv at h ⊢
  simp [List.map_append, h]

theorem add_message_budget (s : Store) (item : ResponseItem) (now : Int) :
    (add_message s item now).current_tokens ≤ (add_message s item now).max_tokens ∨
    (add_message s item now).items.length ≤
      max (add_message s item now).min_messages
        (min ((add_message s item now).max_tokens / 1000) 50) := by
  simp only [add_message]
  exact intelligent_prune_budget _

theorem add_message_timestamps (s : Store) (item : ResponseItem) (now : Int) :
    ((add_message s item now).items.map (fun it => it.timestamp)).Sublist
      (s.items.map (fun it => it.timestamp) ++ [item.timestamp]) := by
  simp only [add_message]
  refine (intelligent_prune_timestamps _).trans ?_
  simp only [List.map_append, List.map_cons, List.map_nil]
  have hts : ((if item.token_count = 0
      then { item with token_count := estimate_tokens item.content }
      else item) : ResponseItem).timestamp = item.timestamp := by
    split <;> rfl
  rw [hts]

theorem ingestAll_timestamps (msgs : List (ResponseItem × Int)) : ∀ (s : Store),
    ((ingestAll s msgs).items.map (fun it => it.timestamp)).Sublist
      (s.items.map (fun it => it.timestamp) ++ msgs.map (fun p => p.1.timestamp)) := by
  induction msgs with
  | nil => intro s; simp [ingestAll]
  | cons m rest ih =>
    intro s
    rcases m with ⟨item, now⟩
    simp only [ingestAll, List.map_cons]
    refine (ih (add_message s item now)).trans ?_
    have h2 := (add_message_timestamps s item now).append_right
      (rest.map (fun p => p.1.timestamp))
    rw [List.append_assoc, List.singleton_append] at h2
    exact h2

theorem ingestAll_sumInv (msgs : List (ResponseItem × Int)) : ∀ (s : Store),
    sumInv s → sumInv (ingestAll s msgs) := by
  induction msgs with
  | nil => intro s h; exact h
  | cons m rest ih =>
    intro s h
    rcases m with ⟨item, now⟩
    exact ih _ (add_message_sumInv s item now h)

end CodexOpt

namespace CodexOpt

/-- C1 (counterexample): the claimed disjunction "running total ≤ max_tokens
OR item count = min_messages" fails after a single ingest of a 200-token
item into a fresh store with `max_tokens = 100`: all three tiers leave the
single item in place (Tier C's early return fires because
1 ≤ target_count = 10), so the total stays 200 > 100 while the count is
1 ≠ 10. -/
theorem claim_C1_counterexample :
    ¬ ((add_message (new 100)
          ⟨"aaaa", "user", 0, 200, 0, MessageType.UserQuery⟩ 0).current_tokens ≤
        (add_message (new 100)
          ⟨"aaaa", "user", 0, 200, 0, MessageType.UserQuery⟩ 0).max_tokens ∨
      (add_message (new 100)
          ⟨"aaaa", "user", 0, 200, 0, MessageType.UserQuery⟩ 0).items.length =
        (add_message (new 100)
          ⟨"aaaa", "user", 0, 200, 0, MessageType.UserQuery⟩ 0).min_messages) := by
  decide

/-- C1 (amended): after each `add_message`, the running total is within
`max_tokens` or the item count is at most Tier C's target count
`max min_messages (min (max_tokens / 1000) 50)`. -/
theorem claim_C1_budget_or_target (s : Store) (item : ResponseItem) (now : Int) :
    (add_message s item now).current_tokens ≤ (add_message s item now).max_tokens ∨
    (add_message s item now).items.length ≤
      max (add_message s item now).min_messages
        (min ((add_message s item now).max_tokens / 1000) 50) :=
  add_message_budget s item now

/-- C2: the running total equals the sum of `token_count` over the stored
items after `add_message` and after each tier taken on its own, and in
every state reachable by ingestion from a fresh store. -/
theorem claim_C2_sum_invariant (s : Store) (item : ResponseItem) (now : Int)
    (msgs : List (ResponseItem × Int)) (m : Nat) (h : sumInv s) :
    sumInv (add_message s item now) ∧ sumInv (compress_old_messages s) ∧
    sumInv (remove_low_importance_messages s) ∧ sumInv (aggressive_prune s) ∧
    sumInv (ingestAll (new m) msgs) :=
  ⟨add_message_sumInv s item now h, compress_sumInv s h, remove_sumInv s h,
    aggressive_sumInv s h, ingestAll_sumInv msgs (new m) rfl⟩

/-- C2 witness at a concrete store and item. -/
theorem claim_C2_witness :
    sumInv (new 7) ∧
    (sumInv (add_message (new 7) ⟨"hi", "user", 0, 3, 0, MessageType.UserQuery⟩ 0) ∧
      sumInv (compress_old_messages (new 7)) ∧
      sumInv (remove_low_importance_messages (new 7)) ∧
      sumInv (aggressive_prune (new 7)) ∧
      sumInv (ingestAll (new 5) [])) :=
  ⟨rfl, claim_C2_sum_invariant (new 7)
    ⟨"hi", "user", 0, 3, 0, MessageType.UserQuery⟩ 0 [] 5 rfl⟩

/-- C3: each pruning operation only subsets the sequence (Tier A rewrites
contents in place, preserving the timestamp sequence exactly; Tiers B and C
yield genuine subsequences of the item list, Tier C by rebuilding survivors
in original index order), and consequently every store reachable by
ingesting items with non-decreasing timestamps has non-decreasing
timestamps in sequence position. -/
theorem claim_C3_order_invariant :
    (∀ s : Store,
      (compress_old_messages s).items.map (fun it => it.timestamp) =
        s.items.map (fun it => it.timestamp) ∧
      ((remove_low_importance_messages s).items).Sublist s.items ∧
      ((aggressive_prune s).items).Sublist s.items ∧
      ((intelligent_prune s).items.map (fun it => it.timestamp)).Sublist
        (s.items.map (fun it => it.timestamp))) ∧
    (∀ (m : Nat) (msgs : List (ResponseItem × Int)),
      List.Sorted (· ≤ ·) (msgs.map (fun p => p.1.timestamp)) →
      List.Sorted (· ≤ ·)
        ((ingestAll (new m) msgs).items.map (fun it => it.timestamp))) := by
  constructor
  · intro s
    exact ⟨compress_timestamps s, remove_items_sublist s, aggressive_items_sublist s,
      intelligent_prune_timestamps s⟩
  · intro m msgs h
    have h1 := ingestAll_timestamps msgs (new m)
    have h2 : (new m).items.map (fun it => it.timestamp) = [] := rfl
    rw [h2, List.nil_append] at h1
    exact List.Pairwise.sublist h1 h

/-- C3 witness: two items ingested with non-decreasing timestamps. -/
theorem claim_C3_witness :
    List.Sorted (· ≤ ·)
      (([(⟨"a", "user", 1, 5, 0, MessageType.UserQuery⟩, (1 : Int)),
          (⟨"b", "user", 2, 5, 0, MessageType.UserQuery⟩, (2 : Int))] :
        List (ResponseItem × Int)).map (fun p => p.1.timestamp)) ∧
    List.Sorted (· ≤ ·)
      ((ingestAll (new 1000)
          [(⟨"a", "user", 1, 5, 0, MessageType.UserQuery⟩, (1 : Int)),
            (⟨"b", "user", 2, 5, 0, MessageType.UserQuery⟩, (2 : Int))]).items.map
        (fun it => it.timestamp)) :=
  ⟨by decide, claim_C3_order_invariant.2 1000
    [(⟨"a", "user", 1, 5, 0, MessageType.UserQuery⟩, (1 : Int)),
      (⟨"b", "user", 2, 5, 0, MessageType.UserQuery⟩, (2 : Int))] (by decide)⟩

/-- C6: Tier B preserves the subsequence of essential items exactly — an
item classified essential by `is_essential_message` is never removed by
`remove_low_importance_messages`, whatever its importance score. -/
theorem claim_C6_essential_protected :
    (∀ s : Store,
      ((remove_low_importance_messages s).items).filter
          (fun it => is_essential_message it) =
        s.items.filter (fun it => is_essential_message it)) ∧
    (∀ (s : Store) (item : ResponseItem), item ∈ s.items →
      is_essential_message item = true →
      item ∈ (remove_low_importance_messages s).items) := by
  constructor
  · intro s
    simp only [remove_low_importance_messages]
    exact removeGo_filter_essential s.max_tokens s.items _ _
  · intro s item hmem hess
    have hf : item ∈ s.items.filter (fun it => is_essential_message it) :=
      List.mem_filter.mpr ⟨hmem, hess⟩
    have heq : ((remove_low_importance_messages s).items).filter
        (fun it => is_essential_message it) =
        s.items.filter (fun it => is_essential_message it) := by
      simp only [remove_low_importance_messages]
      exact removeGo_filter_essential s.max_tokens s.items _ _
    rw [← heq] at hf
    exact (List.mem_filter.mp hf).1

end CodexOpt

namespace CodexOpt

/-- Concrete store for the C6 witness: an essential low-importance item in
front of ten removable fillers, far over budget. -/
def c6store : Store :=
  { items := (⟨"config update", "user", 0, 100, 10, MessageType.ContextualInfo⟩ :
        ResponseItem) ::
      List.replicate 10
        (⟨"aaaa", "user", 0, 100, 10, MessageType.ContextualInfo⟩ : ResponseItem)
    max_tokens := 50
    current_tokens := 1100
    min_messages := 10
    full_retention_count := 20 }

/-- C6 witness: the essential item survives Tier B under removal pressure. -/
theorem claim_C6_witness :
    ((⟨"config update", "user", 0, 100, 10, MessageType.ContextualInfo⟩ :
        ResponseItem) ∈ c6store.items ∧
      is_essential_message
        (⟨"config update", "user", 0, 100, 10, MessageType.ContextualInfo⟩ :
          ResponseItem) = true) ∧
    (⟨"config update", "user", 0, 100, 10, MessageType.ContextualInfo⟩ :
        ResponseItem) ∈ (remove_low_importance_messages c6store).items :=
  ⟨⟨by decide, by decide⟩,
    claim_C6_essential_protected.2 c6store
      ⟨"config update", "user", 0, 100, 10, MessageType.ContextualInfo⟩
      (by decide) (by decide)⟩

/-- C4 (code evaluated at the failing input): the Tier A step is not
idempotent — the source never checks for the `[Compressed]` marker, so on a
250-character content without `". "` the second application appends the
marker a second time, changing the content again. The claim's stated
mechanism (already-compressed items are detected and skipped) does not
exist in the code. -/
theorem claim_C4_not_idempotent :
    ((compressStep
        (compressStep 1000
          ⟨String.mk (List.replicate 250 'a'), "assistant", 0, 72, 20,
            MessageType.SystemResponse⟩).1
        (compressStep 1000
          ⟨String.mk (List.replicate 250 'a'), "assistant", 0, 72, 20,
            MessageType.SystemResponse⟩).2).2).content ≠
      ((compressStep 1000
          ⟨String.mk (List.replicate 250 'a'), "assistant", 0, 72, 20,
            MessageType.SystemResponse⟩).2).content := by
  set_option maxRecDepth 10000 in decide

/-- Concrete store for C5: eleven low-importance non-essential items, far
over budget. -/
def c5store : Store :=
  { items := List.replicate 11
      (⟨"aaaa", "user", 0, 100, 10, MessageType.ContextualInfo⟩ : ResponseItem)
    max_tokens := 50
    current_tokens := 1100
    min_messages := 10
    full_retention_count := 20 }

/-- C5 (code evaluated at the failing input): the Tier B loop bound
`len − min_messages` is computed once from the length at entry and never
refreshed, so once it has removed one item the scan index no longer lines
up with "all but the last `min_messages` items". On an 11-item store of
low-importance non-essential items that stays over budget, Tier B removes
every single item — including all of the 10 most recent — emptying the
store entirely. -/
theorem claim_C5_tierB_removes_recent :
    (remove_low_importance_messages c5store).items = [] ∧
    c5store.items.length = 11 ∧ c5store.min_messages = 10 := by
  refine ⟨by decide, by decide, by decide⟩

end CodexOpt

namespace CodexOpt

/-- C7 (amended): for a 2500-character item with importance 0.2 the Tier A
step always stamps the `[Compressed]` marker, sets the token count to the
estimate of the digest, and adjusts the running total by exactly the
old/new difference — but the token count need not strictly decrease (see
the counterexample: the digest can be longer than the original). -/
theorem claim_C7_compress_marker_delta (c : Nat) (item : ResponseItem)
    (hlen : item.content.length = 2500) (himp : item.importance_score = 20)
    (htc : item.token_count ≤ c) :
    strContains ((compressStep c item).2).content "[Compressed]" = true ∧
    ((compressStep c item).2).token_count =
      estimate_tokens (create_summary item.content) ∧
    (compressStep c item).1 + item.token_count =
      c + ((compressStep c item).2).token_count := by
  have h1 : 200 < item.content.length := by omega
  have h2 : item.importance_score < 70 := by omega
  rw [compressStep_of_eligible h1 h2]
  refine ⟨?_, rfl, ?_⟩
  · exact create_summary_marker h1
  · dsimp only
    omega

/-- Concrete item for the C7 witness: a short first sentence, so the digest
really is shorter than the content. -/
def c7wItem : ResponseItem :=
  ⟨String.mk ('A' :: 'b' :: '.' :: ' ' :: List.replicate 2496 'a'), "user", 0, 715,
    20, MessageType.SystemResponse⟩

/-- C7 witness at `c7wItem` with running total 1000. -/
theorem claim_C7_witness :
    (c7wItem.content.length = 2500 ∧ c7wItem.importance_score = 20 ∧
      c7wItem.token_count ≤ 1000) ∧
    (strContains ((compressStep 1000 c7wItem).2).content "[Compressed]" = true ∧
      ((compressStep 1000 c7wItem).2).token_count =
        estimate_tokens (create_summary c7wItem.content) ∧
      (compressStep 1000 c7wItem).1 + c7wItem.token_count =
        1000 + ((compressStep 1000 c7wItem).2).token_count) :=
  ⟨⟨by
      show ('A' :: 'b' :: '.' :: ' ' :: List.replicate 2496 'a').length = 2500
      rw [List.length_cons, List.length_cons, List.length_cons, List.length_cons,
        List.length_replicate],
    rfl, by show (715 : Nat) ≤ 1000; norm_num⟩,
    claim_C7_compress_marker_delta 1000 c7wItem
      (by
        show ('A' :: 'b' :: '.' :: ' ' :: List.replicate 2496 'a').length = 2500
        rw [List.length_cons, List.length_cons, List.length_cons, List.length_cons,
          List.length_replicate])
      rfl (by show (715 : Nat) ≤ 1000; norm_num)⟩

/-- Concrete item for the C7 counterexample: 2500 `'a'`s, no `". "`, no key
term, estimated at 715 tokens. -/
def c7badItem : ResponseItem :=
  ⟨String.mk (List.replicate 2500 'a'), "user", 0, 715, 20,
    MessageType.SystemResponse⟩

/-- C7 (counterexample): on a 2500-character content with no sentence break
the "digest" is the whole content plus the appended marker (2513
characters), so the token count rises from 715 to 718 instead of strictly
decreasing as the claim asserts. -/
theorem claim_C7_counterexample :
    ¬ (((compressStep 10000 c7badItem).2).token_count < c7badItem.token_count) := by
  have hlen : c7badItem.content.length = 2500 := by
    show (List.replicate 2500 'a').length = 2500
    rw [List.length_replicate]
  have h1 : 200 < c7badItem.content.length := by omega
  have h2 : c7badItem.importance_score < 70 := by
    show (20 : Int) < 70; norm_num
  rw [compressStep_of_eligible h1 h2]
  have hsum : create_summary c7badItem.content =
      c7badItem.content ++ " [Compressed]" := by
    rw [create_summary_eq_of_long h1]
    have htake : takeUntilSub [ '.', ' ' ] c7badItem.content.data =
        c7badItem.content.data := by
      apply takeUntilSub_notMem
      rw [show c7badItem.content.data = List.replicate 2500 'a' from rfl]
      exact fun hmem => absurd (List.eq_of_mem_replicate hmem) (by decide)
    rw [htake,
      show String.mk c7badItem.content.data = c7badItem.content from rfl,
      addKeyTerms_of_none ?hnone _]
    case hnone =>
      intro t ht
      have hlow : lowerStr c7badItem.content =
          String.mk (List.replicate 2500 'a') := by
        rw [show c7badItem.content = String.mk (List.replicate 2500 'a') from rfl]
        exact lowerStr_replicate_a 2500
      rw [hlow]
      simp only [key_terms, List.mem_cons, List.not_mem_nil, or_false] at ht
      rcases ht with rfl | rfl | rfl | rfl | rfl | rfl
      · exact strContains_mk_false_of_head_notMem rfl (fun hmem => absurd (List.eq_of_mem_replicate hmem) (by decide))
      · exact strContains_mk_false_of_head_notMem rfl (fun hmem => absurd (List.eq_of_mem_replicate hmem) (by decide))
      · exact strContains_mk_false_of_head_notMem rfl (fun hmem => absurd (List.eq_of_mem_replicate hmem) (by decide))
      · exact strContains_mk_false_of_head_notMem rfl (fun hmem => absurd (List.eq_of_mem_replicate hmem) (by decide))
      · exact strContains_mk_false_of_head_notMem rfl (fun hmem => absurd (List.eq_of_mem_replicate hmem) (by decide))
      · exact strContains_mk_false_of_head_notMem rfl (fun hmem => absurd (List.eq_of_mem_replicate hmem) (by decide))
  dsimp only
  rw [hsum]
  unfold estimate_tokens
  rw [String.length_append, hlen,
    show (" [Compressed]" : String).length = 13 from rfl,
    show c7badItem.token_count = 715 from rfl]
  norm_num

end CodexOpt

namespace CodexOpt

theorem ite_add_shift (c : Prop) [Decidable c] (x a : Int) :
    (if c then x + a else x) = x + (if c then a else 0) := by
  split_ifs <;> omega

theorem ite_sub_shift (c : Prop) [Decidable c] (x a : Int) :
    (if c then x - a else x) = x + (if c then -a else 0) := by
  split_ifs <;> omega

set_option maxHeartbeats 1000000 in
/-- C8: `calculate_importance` equals the spec's additive model — base 0.5
plus category adjustment, the three keyword bonuses, the code-marker bonus,
the verbosity penalty and the recency bonus, clamped to [0,1] (all in
hundredths) — and its result is always within the clamp range. It is a pure
function of the item's stored fields and the supplied `now`, so two
evaluations at the same arguments are definitionally equal. -/
theorem claim_C8_importance_formula (item : ResponseItem) (now : Int) :
    calculate_importance item now = importanceSpec item now ∧
    0 ≤ calculate_importance item now ∧ calculate_importance item now ≤ 100 := by
  have heq : calculate_importance item now = importanceSpec item now := by
    cases item with
    | mk content role timestamp token_count importance_score message_type =>
      cases message_type <;>
        simp only [calculate_importance, importanceSpec, categoryAdjustment,
          keywordBonus, codeMarkerBonus, verbosityPenalty, recencyBonus,
          ite_add_shift, ite_sub_shift] <;> omega
  refine ⟨heq, ?_, ?_⟩ <;> rw [heq] <;> (simp only [importanceSpec]; omega)

/-- C9 (code evaluated at the failing input): `new 0` is accepted without
any validation — it returns an ordinary store with `max_tokens = 0` instead
of failing fast as the claim requires. (The later stats division is an
`f64` division, which cannot fault; it yields a saturating cast of
NaN/infinity.) -/
theorem claim_C9_new_zero_accepted :
    new 0 = { items := [], max_tokens := 0, current_tokens := 0,
              min_messages := 10, full_retention_count := 20 } := rfl

/-- C10: a fresh store always has `min_messages = 10` and
`full_retention_count = 20` (the constructor takes only `max_tokens`), and
`keep_last_messages` overwrites `min_messages` with any positive count
(the subsequent re-prune leaves the field untouched). -/
theorem claim_C10_constructor_defaults (m : Nat) (s : Store) (count : Nat) :
    (new m).min_messages = 10 ∧ (new m).full_retention_count = 20 ∧
    (new m).max_tokens = m ∧ (new m).items = [] ∧
    (0 < count → (keep_last_messages s count).min_messages = count) := by
  refine ⟨rfl, rfl, rfl, rfl, ?_⟩
  intro h
  simp only [keep_last_messages]
  rw [if_pos h, intelligent_prune_min]

/-- C10 witness: overriding the floor to 5 on a fresh store. -/
theorem claim_C10_witness :
    0 < 5 ∧ (keep_last_messages (new 7) 5).min_messages = 5 :=
  ⟨by norm_num,
    (claim_C10_constructor_defaults 7 (new 7) 5).2.2.2.2 (by norm_num)⟩

end CodexOpt
